import Mathlib

/-
Verification of the retrieval-augmented chat assistant in this repository
(src/main.py and src/build_index.py).

The embedding models the pure decision logic of the two scripts:
string handling follows Python semantics on ASCII text (str.strip, str.lower,
str.split with a maxsplit bound, truthiness of strings and of None), the
per-category retriever table is an association list from category name to a
retrieval function, and the effects of one message-handling pass are reified
as an outcome value whose constructors record which user-visible reply is
produced and whether the remote completion endpoint is invoked.  External
services (embedding provider, vector search internals, the LLM itself, the
chat transport and the wall clock) are inputs of the embedded functions.
-/

/-- Python whitespace test used by str.strip, restricted to the ASCII
whitespace characters (space, tab, newline, carriage return, vertical tab,
form feed). -/
def isPySpace (c : Char) : Bool :=
  c == ' ' || c == '\t' || c == '\n' || c == '\r' || c == '\x0b' || c == '\x0c'

/-- Drop leading whitespace, as Python str.lstrip. -/
def lstrip (l : List Char) : List Char := List.dropWhile isPySpace l

/-- Drop trailing whitespace, as Python str.rstrip. -/
def rstrip (l : List Char) : List Char := (List.dropWhile isPySpace l.reverse).reverse

/-- Python str.strip on a character list: drop whitespace at both ends. -/
def pyStripL (l : List Char) : List Char := rstrip (lstrip l)

/-- Python str.lower on a character list (ASCII case mapping). -/
def pyLowerL (l : List Char) : List Char := l.map Char.toLower

/-- Python str.strip on a string. -/
def pyStrip (s : String) : String := String.mk (pyStripL s.data)

/-- Python str.lower on a string. -/
def pyLower (s : String) : String := String.mk (pyLowerL s.data)

/-- Python str.capitalize: first character upper-cased, the rest lower-cased. -/
def pyCapitalize (s : String) : String :=
  match s.data with
  | [] => ""
  | c :: t => String.mk (c.toUpper :: pyLowerL t)

/-- Split at the first occurrence of a separator character, as Python
s.split(sep, 1) when the separator occurs: the pair holds the text before
the first separator and everything after it. -/
def split_first (l : List Char) (c : Char) : List Char × List Char :=
  match l with
  | [] => ([], [])
  | x :: xs =>
    if x = c then ([], xs)
    else (x :: (split_first xs c).1, (split_first xs c).2)

/-- Python sep.join(parts). -/
def joinSep (sep : String) : List String → String
  | [] => ""
  | [x] => x
  | x :: y :: t => x ++ sep ++ joinSep sep (y :: t)

/-- Lookup in an association list keyed by strings, first match wins;
models a Python dict lookup (dict keys are unique, insertion order kept). -/
def assocFind {α : Type} (l : List (String × α)) (k : String) : Option α :=
  match l with
  | [] => none
  | e :: t => if e.1 = k then some e.2 else assocFind t k

/-- The static alias table ALIASES of src/main.py (insertion order kept). -/
def ALIASES : List (String × List String) :=
  [("character", ["character", "karakter"]),
   ("factions", ["faction", "factions", "tim", "team", "faksi"]),
   ("items", ["item", "items", "artefak", "artifact", "barang"]),
   ("maps", ["maps", "map", "peta", "lokasi", "area"]),
   ("npc", ["npc"]),
   ("timeline", ["timeline", "linimasa", "alur", "sejarah"])]

/-- The alias scan inside detect_category_and_query: the first category of
ALIASES whose key list contains the prepared prefix, if any. -/
def alias_lookup (pfx : String) : Option String :=
  match ALIASES.find? (fun e => decide (pfx ∈ e.2)) with
  | some e => some e.1
  | none => none

/-- Embeds detect_category_and_query of src/main.py: strip the input; when it
contains a colon, split at the first colon, lower-case and strip the part
before it and look it up in the alias table; on a hit return the category
with the stripped remainder, otherwise return no category with the whole
stripped input. -/
def detect_category_and_query (text : String) : Option String × String :=
  let raw := pyStripL text.data
  if (':' : Char) ∈ raw then
    match alias_lookup (String.mk (pyLowerL (pyStripL (split_first raw ':').1))) with
    | some cat => (some cat, String.mk (pyStripL (split_first raw ':').2))
    | none => (none, String.mk raw)
  else (none, String.mk raw)

/-- Category resolution step of handle_message: the alias-detected category
if present, else the session-selected category. -/
def merge_cat (aliasCat sel : Option String) : Option String :=
  match aliasCat with
  | some c => some c
  | none => sel

/-- A text node as carried by a retrieved chunk: raw text plus string
metadata (in the bot the source file name lives in the metadata). -/
structure TextNode where
  text : String
  metadata : List (String × String)
deriving DecidableEq

/-- A retrieval result.  Every value passed around by handle_message is a
NodeWithScore, which always carries a node attribute, so the
hasattr(n, "node") test in collect_sources takes its true branch and the
metadata read is n.node.metadata. -/
structure NodeWithScore where
  node : TextNode
deriving DecidableEq

/-- Python dict.get on the metadata mapping. -/
def metaGet (m : List (String × String)) (k : String) : Option String := assocFind m k

/-- Python or on optional strings: the left value when it is truthy
(present and non-empty), else the right value. -/
def pyOrS : Option String → Option String → Option String
  | some s, b => if s = "" then b else some s
  | none, b => b

/-- The file-name extraction of collect_sources:
meta.get("file_name") or meta.get("filename") or meta.get("id"). -/
def fname_of (n : NodeWithScore) : Option String :=
  pyOrS (pyOrS (metaGet n.node.metadata "file_name") (metaGet n.node.metadata "filename"))
    (metaGet n.node.metadata "id")

/-- The truthiness filter applied to the extracted file name: the guard
if fname and fname not in files only accepts a present, non-empty name. -/
def eff_fname (n : NodeWithScore) : Option String :=
  match fname_of n with
  | some s => if s = "" then none else some s
  | none => none

/-- The accumulation loop of collect_sources: walk the extracted file names,
append each truthy name not seen before, and stop as soon as the collected
list has reached max_files entries (the break is tested after each element,
matching the Python loop). -/
def collectLoop : List (Option String) → Nat → List String → List String
  | [], _, acc => acc
  | o :: rest, mf, acc =>
    let acc2 := match o with
      | some f => if f ∈ acc then acc else acc ++ [f]
      | none => acc
    if mf ≤ acc2.length then acc2 else collectLoop rest mf acc2

/-- The de-duplicated file list collected by collect_sources. -/
def sources_files (nodes : List NodeWithScore) (mf : Nat) : List String :=
  collectLoop (nodes.map eff_fname) mf []

/-- Embeds collect_sources of src/main.py with its default max_files = 5:
join the collected names with a comma, or fall back to the literal
"dataset" when no name was collected. -/
def collect_sources (nodes : List NodeWithScore) : String :=
  if sources_files nodes 5 = [] then "dataset" else joinSep ", " (sources_files nodes 5)

/-- A per-category retriever: query text to retrieved chunks.  The vector
search itself is an external library, so it enters the model as a function. -/
abbrev RetrieveFn := String → List NodeWithScore

/-- The loaded retriever table (the module-level retrievers dict), an
association list from category name to retriever in insertion order. -/
abbrev Retrievers := List (String × RetrieveFn)

/-- The optional reranker: postprocess_nodes may reorder the chunks or raise
at runtime; a raised exception is modelled as none. -/
abbrev RerankFn := String → List NodeWithScore → Option (List NodeWithScore)

/-- Retrieval step of handle_message: with a truthy category, query that
category's retriever (the none branch after a successful guard is
unreachable); with no truthy category, query every loaded retriever in
order and concatenate. -/
def retrieve_step (R : Retrievers) (cat : Option String) (q : String) : List NodeWithScore :=
  match cat with
  | none => R.flatMap (fun e => e.2 q)
  | some c =>
    if c = "" then R.flatMap (fun e => e.2 q)
    else
      match assocFind R c with
      | some r => r q
      | none => []

/-- Rerank step of handle_message: only attempted when a reranker exists and
chunks were retrieved; a runtime failure of postprocess_nodes is swallowed
and the original list is kept (try/except pass). -/
def rerank_step (rr : Option RerankFn) (q : String) (ns : List NodeWithScore) :
    List NodeWithScore :=
  match rr with
  | none => ns
  | some f =>
    if ns = [] then ns
    else
      match f q ns with
      | some ns2 => ns2
      | none => ns

/-- Context assembly of handle_message: the first 12 chunk texts joined with
the fixed delimiter. -/
def context_join (texts : List String) : String :=
  joinSep "\n\n---\n\n" (texts.take 12)

/-- The fixed not-found reply of handle_message. -/
def not_found_msg : String :=
  "🙇‍♂️ Maaf, belum ketemu di basis data. Coba spesifikkan pertanyaan atau cek index."

/-- The grounded prompt assembled by handle_message. -/
def mk_prompt (context_text q : String) : String :=
  "Jawablah pertanyaan hanya dengan memanfaatkan KONTEN berikut. " ++
  "Jika jawaban persis tidak ada, gunakan informasi paling relevan dari KONTEN untuk memberi penjelasan ringkas. " ++
  "Jika sama sekali tidak relevan, tulis: \x27Informasi tidak ditemukan di basis data.\x27\n\n" ++
  "--- KONTEN ---\n" ++ context_text ++ "\n\n" ++
  "--- PERTANYAAN ---\n" ++ q ++ "\n\n" ++
  "--- PETUNJUK ---\n" ++
  "- Utamakan fakta dari KONTEN.\n" ++
  "- Jika tidak ada fakta langsung, boleh simpulkan singkat dari potongan yang terkait.\n" ++
  "- Jika benar-benar kosong, tulis: \x27Informasi tidak ditemukan di basis data.\x27\n"

/-- The mode note name: Semua for a falsy category (None or empty), else the
category itself. -/
def mode_name : Option String → String
  | none => "Semua"
  | some c => if c = "" then "Semua" else c

/-- The not-indexed reply of handle_message for a resolved category. -/
def hm_not_indexed_msg (cat : String) : String :=
  "Kategori \x27" ++ cat ++ "\x27 belum ter-index. Jalankan build_index.py dulu."

/-- Result of one handle_message pass.  notIndexed and noContext replace the
processing placeholder without contacting the model; llmCall records the one
await Settings.llm.acomplete(prompt) call together with the source note and
mode note later attached to the answer. -/
inductive Outcome where
  | notIndexed (text : String)
  | noContext (text : String)
  | llmCall (prompt source_note mode_note : String)
deriving DecidableEq

/-- True exactly on the outcome that performs the remote model call. -/
def Outcome.is_llm_call : Outcome → Bool
  | Outcome.llmCall _ _ _ => true
  | _ => false

/-- The guard if cat and cat not in retrievers of handle_message: a truthy
category absent from the loaded retriever table. -/
def cat_guard (R : Retrievers) : Option String → Bool
  | none => false
  | some c => (c != "") && (assocFind R c).isNone

/-- Answer composition of handle_message after retrieval and reranking:
blank joined context yields the fixed not-found reply without a model call,
otherwise one completion call is issued on the grounded prompt. -/
def answer_step (cat : Option String) (q : String) (ns : List NodeWithScore) : Outcome :=
  if pyStripL (context_join (ns.map (fun n => n.node.text))).data = [] then
    Outcome.noContext not_found_msg
  else
    Outcome.llmCall (mk_prompt (context_join (ns.map (fun n => n.node.text))) q)
      ("(Sumber: " ++ collect_sources ns ++ ")")
      ("[Mode: " ++ mode_name cat ++ "]")

/-- Core of handle_message after category resolution. -/
def handle_core (R : Retrievers) (rr : Option RerankFn) (cat : Option String) (q : String) :
    Outcome :=
  if cat_guard R cat then Outcome.notIndexed (hm_not_indexed_msg (cat.getD ""))
  else answer_step cat q (rerank_step rr q (retrieve_step R cat q))

/-- Embeds handle_message of src/main.py for one incoming message, given the
loaded retrievers, the optional reranker, the session-selected category and
the raw message text. -/
def handle_message (R : Retrievers) (rr : Option RerankFn) (sel : Option String)
    (q_raw : String) : Outcome :=
  handle_core R rr (merge_cat (detect_category_and_query q_raw).1 sel)
    (detect_category_and_query q_raw).2

/-- The chunk list reaching answer composition for a given message: retrieval
followed by the rerank step, on the detected query text. -/
def pipeline_nodes (R : Retrievers) (rr : Option RerankFn) (sel : Option String)
    (q_raw : String) : List NodeWithScore :=
  rerank_step rr (detect_category_and_query q_raw).2
    (retrieve_step R (merge_cat (detect_category_and_query q_raw).1 sel)
      (detect_category_and_query q_raw).2)

/-- Result of one pick_category_callback pass (the category keyboard). -/
inductive PickOutcome where
  | unknownChoice (text : String)
  | modeAll (text : String)
  | notIndexed (text : String)
  | selected (text : String)
deriving DecidableEq

/-- The not-indexed reply of pick_category_callback. -/
def pick_not_indexed_msg (cat : String) : String :=
  "Kategori \x27" ++ cat ++ "\x27 belum ter-index. Jalankan build_index.py untuk folder itu dulu."

/-- pick_category_callback after the payload parsed into a category token:
all clears the selection, a loaded category is stored in the session, and a
category absent from the retriever table is reported without touching the
session. -/
def pick_core (R : Retrievers) (cat : String) (sel : Option String) :
    PickOutcome × Option String :=
  if cat = "all" then
    (PickOutcome.modeAll "Mode: 🔎 semua kategori.\nTulis pertanyaanmu:", none)
  else
    match assocFind R cat with
    | none => (PickOutcome.notIndexed (pick_not_indexed_msg cat), sel)
    | some _ =>
      (PickOutcome.selected ("Mode: 🗂 " ++ pyCapitalize cat ++ "\nSilakan ketik pertanyaanmu…"),
       some cat)

/-- Embeds pick_category_callback of src/main.py: q.data.split("|", 1)
unpacked into two parts succeeds exactly when the payload contains a bar;
otherwise the except branch replies that the choice is unknown and leaves
the session untouched. -/
def pick_category_callback (R : Retrievers) (data : String) (sel : Option String) :
    PickOutcome × Option String :=
  if ('|' : Char) ∈ data.data then
    pick_core R (String.mk (split_first data.data '|').2) sel
  else (PickOutcome.unknownChoice "Pilihan tidak dikenal. /start lagi ya.", sel)

/-- Result of one feedback_callback pass. -/
inductive FBOutcome where
  | invalid (text : String)
  | thanks (text : String)
deriving DecidableEq

/-- The CSV header written by DictWriter.writeheader, in row key order. -/
def FIELDNAMES : List String := ["user_id", "username", "score", "question", "timestamp"]

/-- One feedback row in field order: user id, username (empty when the user
has none), score, question, timestamp (datetime.now().isoformat() enters the
model as the now_iso input). -/
def fb_row (user_id : Int) (username : Option String) (score question now_iso : String) :
    List String :=
  [toString user_id, username.getD "", score, question, now_iso]

/-- Python q.data.split("|", 2) unpacked into three names: succeeds exactly
when the payload contains at least two bars, yielding the part before the
first bar, the part between the first and second bars, and the verbatim
rest. -/
def pySplit2 (s : String) : Option (String × String × String) :=
  if ('|' : Char) ∈ s.data then
    if ('|' : Char) ∈ (split_first s.data '|').2 then
      some (String.mk (split_first s.data '|').1,
            String.mk (split_first (split_first s.data '|').2 '|').1,
            String.mk (split_first (split_first s.data '|').2 '|').2)
    else none
  else none

/-- Embeds feedback_callback of src/main.py over the feedback log file,
modelled as its list of delimited rows: a malformed payload is reported and
the file is untouched; otherwise one row is appended, preceded by the header
row exactly when the file was empty (f.tell() == 0). -/
def feedback_callback (file : List (List String)) (data : String) (user_id : Int)
    (username : Option String) (now_iso : String) : FBOutcome × List (List String) :=
  match pySplit2 data with
  | none => (FBOutcome.invalid "⚠️ Format feedback tidak valid.", file)
  | some (_, score, question) =>
    (FBOutcome.thanks ("✅ Terima kasih! Feedback " ++ score ++ "/5 terekam."),
     if file = [] then [FIELDNAMES, fb_row user_id username score question now_iso]
     else file ++ [fb_row user_id username score question now_iso])

/-- Insertion into a sorted string list, the step of the sorted builtin. -/
def insertSorted (x : String) : List String → List String
  | [] => [x]
  | y :: ys => if x ≤ y then x :: y :: ys else y :: insertSorted x ys

/-- Python sorted on a string list (an insertion sort; only the result
matters). -/
def pySorted (l : List String) : List String := l.foldr insertSorted []

/-- Embeds build_one of src/build_index.py over the persisted store, an
association list from category to the persisted index state.  The opaque
per-category index is represented by the sorted source file list it was
built from (splitting, embedding and vector indexing are external).  Zero
markdown files: return with only a warning, store untouched.  Otherwise the
previously persisted directory of this category is removed (shutil.rmtree)
and the fresh index is persisted in its place. -/
def build_one (category : String) (src_md : List String)
    (store : List (String × List String)) : List (String × List String) :=
  if pySorted src_md = [] then store
  else store.filter (fun e => e.1 != category) ++ [(category, pySorted src_md)]

/-
Supporting lemmas about the embedded Python string primitives.
-/

lemma data_mk (l : List Char) : (String.mk l).data = l := rfl

lemma sdata_append (s t : String) : (s ++ t).data = s.data ++ t.data := rfl

lemma str_eq_empty_iff (s : String) : s = "" ↔ s.data = [] := by
  constructor
  · intro h; rw [h]
  · intro h; exact String.ext h

lemma dropWhile_idem (p : Char → Bool) (l : List Char) :
    List.dropWhile p (List.dropWhile p l) = List.dropWhile p l := by
  induction l with
  | nil => rfl
  | cons a t ih =>
    cases hpa : p a <;> simp [List.dropWhile_cons, hpa, ih]

lemma lstrip_append_cons {c : Char} (hc : isPySpace c = false) (x y : List Char) :
    lstrip (x ++ c :: y) = lstrip x ++ c :: y := by
  simp only [lstrip, List.dropWhile_append, List.dropWhile_cons, hc]
  split
  · next h =>
    rw [List.isEmpty_iff.mp h]
    simp
  · rfl

lemma rstrip_append (x z : List Char) :
    rstrip (x ++ z) = if rstrip z = [] then rstrip x else x ++ rstrip z := by
  simp only [rstrip, List.reverse_append, List.dropWhile_append]
  split
  · next h =>
    rw [if_pos]
    rw [List.reverse_eq_nil_iff, List.isEmpty_iff.mp h]
  · next h =>
    rw [if_neg]
    · rw [List.reverse_append, List.reverse_reverse]
    · intro hz
      rw [List.reverse_eq_nil_iff] at hz
      rw [hz] at h
      exact h rfl

lemma rstrip_single (a : Char) : rstrip [a] = if isPySpace a then [] else [a] := by
  cases ha : isPySpace a <;> simp [rstrip, List.dropWhile_cons, ha]

lemma rstrip_cons (a : Char) (l : List Char) :
    rstrip (a :: l) = if rstrip l = [] then (if isPySpace a then [] else [a])
      else a :: rstrip l := by
  have h := rstrip_append [a] l
  simp only [List.singleton_append] at h
  rw [h, rstrip_single]

lemma lstrip_cons_true {a : Char} {l : List Char} (h : isPySpace a = true) :
    lstrip (a :: l) = lstrip l := by
  simp [lstrip, List.dropWhile_cons, h]

lemma lstrip_cons_false {a : Char} {l : List Char} (h : isPySpace a = false) :
    lstrip (a :: l) = a :: l := by
  simp [lstrip, List.dropWhile_cons, h]

lemma rstrip_cons_false {c : Char} (hc : isPySpace c = false) (y : List Char) :
    rstrip (c :: y) = c :: rstrip y := by
  rw [rstrip_cons]
  by_cases hy : rstrip y = []
  · rw [if_pos hy, hy, hc]
    simp
  · rw [if_neg hy]

lemma rstrip_append_cons {c : Char} (hc : isPySpace c = false) (x y : List Char) :
    rstrip (x ++ c :: y) = x ++ c :: rstrip y := by
  have hne : rstrip (c :: y) ≠ [] := by
    rw [rstrip_cons_false hc]
    simp
  rw [rstrip_append, if_neg hne, rstrip_cons_false hc]

lemma lstrip_idem (l : List Char) : lstrip (lstrip l) = lstrip l :=
  dropWhile_idem isPySpace l

lemma rstrip_idem (l : List Char) : rstrip (rstrip l) = rstrip l := by
  simp only [rstrip, List.reverse_reverse]
  rw [dropWhile_idem]

lemma lstrip_rstrip_comm (l : List Char) : lstrip (rstrip l) = rstrip (lstrip l) := by
  induction l with
  | nil => rfl
  | cons a t ih =>
    cases hpa : isPySpace a
    · rw [lstrip_cons_false hpa, rstrip_cons_false hpa, lstrip_cons_false hpa]
    · rw [lstrip_cons_true hpa, ← ih, rstrip_cons]
      by_cases hrt : rstrip t = []
      · rw [if_pos hrt, hpa, if_pos rfl, hrt]
      · rw [if_neg hrt, lstrip_cons_true hpa]

lemma pyStripL_append_cons {c : Char} (hc : isPySpace c = false) (x y : List Char) :
    pyStripL (x ++ c :: y) = lstrip x ++ c :: rstrip y := by
  rw [pyStripL, lstrip_append_cons hc, rstrip_append_cons hc]

lemma pyStripL_lstrip (x : List Char) : pyStripL (lstrip x) = pyStripL x := by
  rw [pyStripL, lstrip_idem]; rfl

lemma pyStripL_rstrip (x : List Char) : pyStripL (rstrip x) = pyStripL x := by
  rw [pyStripL, lstrip_rstrip_comm, rstrip_idem]
  rfl

lemma mem_dropWhile {p : Char → Bool} {c : Char} (hc : p c = false) {l : List Char}
    (h : c ∈ l) : c ∈ List.dropWhile p l := by
  induction l with
  | nil => cases h
  | cons a t ih =>
    cases hpa : p a
    · simpa [List.dropWhile_cons, hpa] using h
    · rw [List.dropWhile_cons, if_pos hpa]
      rcases List.mem_cons.mp h with h1 | h1
      · rw [h1] at hc; rw [hc] at hpa; cases hpa
      · exact ih h1

lemma mem_pyStripL {c : Char} (hc : isPySpace c = false) {l : List Char} (h : c ∈ l) :
    c ∈ pyStripL l := by
  rw [pyStripL, rstrip]
  rw [List.mem_reverse]
  exact mem_dropWhile hc (List.mem_reverse.mpr (mem_dropWhile hc h))

lemma pyStripL_subset {c : Char} {l : List Char} (h : c ∈ pyStripL l) : c ∈ l := by
  rw [pyStripL, rstrip, List.mem_reverse] at h
  have h2 := (List.dropWhile_sublist isPySpace).subset h
  rw [List.mem_reverse] at h2
  exact (List.dropWhile_sublist isPySpace).subset h2

lemma split_first_append {c : Char} (x y : List Char) (h : c ∉ x) :
    split_first (x ++ c :: y) c = (x, y) := by
  induction x with
  | nil => simp [split_first]
  | cons a t ih =>
    have ha : a ≠ c := fun he => h (he ▸ List.mem_cons_self a t)
    have ht : c ∉ t := fun hm => h (List.mem_cons_of_mem a hm)
    simp [split_first, ha, ih ht]

lemma split_first_decomp {c : Char} {l : List Char} (h : c ∈ l) :
    l = (split_first l c).1 ++ c :: (split_first l c).2 ∧ c ∉ (split_first l c).1 := by
  induction l with
  | nil => cases h
  | cons a t ih =>
    by_cases ha : a = c
    · subst ha; simp [split_first]
    · have ht : c ∈ t := by
        rcases List.mem_cons.mp h with h1 | h1
        · exact absurd h1.symm ha
        · exact h1
      have := ih ht
      refine ⟨?_, ?_⟩
      · simp only [split_first, if_neg ha]
        rw [List.cons_append]
        exact congrArg (a :: ·) this.1
      · simp only [split_first, if_neg ha]
        intro hm
        rcases List.mem_cons.mp hm with h1 | h1
        · exact ha h1.symm
        · exact this.2 h1

/-
Lemmas about detect_category_and_query.
-/

lemma isPySpace_colon : isPySpace ':' = false := rfl

lemma detect_alias (a b cat2 : String)
    (h1 : alias_lookup (pyLower (pyStrip a)) = some cat2)
    (h2 : (':' : Char) ∉ a.data) :
    detect_category_and_query (a ++ ":" ++ b) = (some cat2, pyStrip b) := by
  have hdata : (a ++ ":" ++ b).data = a.data ++ ':' :: b.data := by
    rw [sdata_append, sdata_append]
    rw [List.append_assoc]
    rfl
  have hraw : pyStripL (a ++ ":" ++ b).data = lstrip a.data ++ ':' :: rstrip b.data := by
    rw [hdata, pyStripL_append_cons isPySpace_colon]
  have hnotin : (':' : Char) ∉ lstrip a.data := fun hm =>
    h2 ((List.dropWhile_sublist isPySpace).subset hm)
  have hsf : split_first (lstrip a.data ++ ':' :: rstrip b.data) ':' =
      (lstrip a.data, rstrip b.data) := split_first_append _ _ hnotin
  have h1x : alias_lookup (String.mk (pyLowerL (pyStripL a.data))) = some cat2 := by
    simpa only [pyLower, pyStrip, data_mk] using h1
  simp only [detect_category_and_query, hraw]
  rw [if_pos (by simp)]
  rw [hsf]
  simp only [pyStripL_lstrip, pyStripL_rstrip, h1x]
  rfl

lemma detect_no_colon {s : String} (h : (':' : Char) ∉ s.data) :
    detect_category_and_query s = (none, pyStrip s) := by
  have hnc : (':' : Char) ∉ pyStripL s.data := fun hm => h (pyStripL_subset hm)
  simp only [detect_category_and_query]
  rw [if_neg hnc]
  rfl

lemma detect_unknown {s : String} (hc : (':' : Char) ∈ s.data)
    (h : alias_lookup
      (String.mk (pyLowerL (pyStripL (split_first (pyStripL s.data) ':').1))) = none) :
    detect_category_and_query s = (none, pyStrip s) := by
  simp only [detect_category_and_query]
  rw [if_pos (mem_pyStripL isPySpace_colon hc), h]
  rfl

/-
Lemmas about the collect_sources loop: the collected list is the first-seen
de-duplication of the extracted file names, truncated to the cap.
-/

/-- First-occurrence de-duplication relative to an initial seen set. -/
def first_seen (seen : List String) : List String → List String
  | [] => []
  | x :: xs => if x ∈ seen then first_seen seen xs else x :: first_seen (seen ++ [x]) xs

lemma collectLoop_eq (l : List (Option String)) (mf : Nat) :
    ∀ acc, acc.length < mf →
      collectLoop l mf acc = acc ++ (first_seen acc (l.filterMap id)).take (mf - acc.length) := by
  induction l with
  | nil => intro acc h; simp [collectLoop, first_seen]
  | cons o rest ih =>
    intro acc h
    cases o with
    | none =>
      rw [show collectLoop (none :: rest) mf acc =
          if mf ≤ acc.length then acc else collectLoop rest mf acc from rfl]
      rw [if_neg (Nat.not_le.mpr h), ih acc h]
      simp [List.filterMap_cons]
    | some f =>
      by_cases hf : f ∈ acc
      · rw [show collectLoop (some f :: rest) mf acc =
            if mf ≤ (if f ∈ acc then acc else acc ++ [f]).length then
              (if f ∈ acc then acc else acc ++ [f])
            else collectLoop rest mf (if f ∈ acc then acc else acc ++ [f]) from rfl]
        rw [if_pos hf, if_neg (Nat.not_le.mpr h), ih acc h]
        simp [List.filterMap_cons, first_seen, hf]
      · rw [show collectLoop (some f :: rest) mf acc =
            if mf ≤ (if f ∈ acc then acc else acc ++ [f]).length then
              (if f ∈ acc then acc else acc ++ [f])
            else collectLoop rest mf (if f ∈ acc then acc else acc ++ [f]) from rfl]
        rw [if_neg hf]
        have hfs : first_seen acc (List.filterMap id (some f :: rest)) =
            f :: first_seen (acc ++ [f]) (List.filterMap id rest) := by
          simp [List.filterMap_cons, first_seen, hf]
        rw [hfs]
        have hlen : (acc ++ [f]).length = acc.length + 1 := by simp
        have hsub : mf - acc.length = (mf - (acc.length + 1)) + 1 := by omega
        rw [hsub, List.take_succ_cons]
        by_cases hstop : mf ≤ acc.length + 1
        · rw [if_pos (by rw [hlen]; exact hstop)]
          have hz : mf - (acc.length + 1) = 0 := by omega
          rw [hz, List.take_zero]
        · rw [if_neg (by rw [hlen]; exact hstop)]
          rw [ih (acc ++ [f]) (by rw [hlen]; omega), hlen]
          simp [List.append_assoc]

lemma first_seen_nodup (l : List String) :
    ∀ seen, (first_seen seen l).Nodup ∧ ∀ x ∈ first_seen seen l, x ∉ seen := by
  induction l with
  | nil => intro seen; exact ⟨List.nodup_nil, by intro x hx; cases hx⟩
  | cons a t ih =>
    intro seen
    by_cases ha : a ∈ seen
    · simp only [first_seen, if_pos ha]
      exact ⟨(ih seen).1, (ih seen).2⟩
    · simp only [first_seen, if_neg ha]
      have h2 := ih (seen ++ [a])
      constructor
      · refine List.nodup_cons.mpr ⟨?_, h2.1⟩
        intro hmem
        exact h2.2 a hmem (List.mem_append_right seen (List.mem_singleton.mpr rfl))
      · intro x hx hxs
        rcases List.mem_cons.mp hx with h1 | h1
        · exact ha (h1 ▸ hxs)
        · exact h2.2 x h1 (List.mem_append_left [a] hxs)

lemma collectLoop_mem (mf : Nat) (l : List (Option String)) :
    ∀ acc x, x ∈ collectLoop l mf acc → x ∈ acc ∨ some x ∈ l := by
  induction l with
  | nil => intro acc x hx; exact Or.inl hx
  | cons o rest ih =>
    intro acc x hx
    cases o with
    | none =>
      rw [show collectLoop (none :: rest) mf acc =
          if mf ≤ acc.length then acc else collectLoop rest mf acc from rfl] at hx
      split at hx
      · exact Or.inl hx
      · rcases ih acc x hx with h1 | h1
        · exact Or.inl h1
        · exact Or.inr (List.mem_cons_of_mem none h1)
    | some f =>
      rw [show collectLoop (some f :: rest) mf acc =
          if mf ≤ (if f ∈ acc then acc else acc ++ [f]).length then
            (if f ∈ acc then acc else acc ++ [f])
          else collectLoop rest mf (if f ∈ acc then acc else acc ++ [f]) from rfl] at hx
      have step : ∀ y, y ∈ (if f ∈ acc then acc else acc ++ [f]) → y ∈ acc ∨ some y ∈ some f :: rest := by
        intro y hy
        split at hy
        · exact Or.inl hy
        · rcases List.mem_append.mp hy with h1 | h1
          · exact Or.inl h1
          · exact Or.inr (by rw [List.mem_singleton.mp h1]; exact List.mem_cons_self _ _)
      by_cases hstop : mf ≤ (if f ∈ acc then acc else acc ++ [f]).length
      · rw [if_pos hstop] at hx
        exact step x hx
      · rw [if_neg hstop] at hx
        rcases ih _ x hx with h1 | h1
        · exact step x h1
        · exact Or.inr (List.mem_cons_of_mem _ h1)

lemma collectLoop_all_none {mf : Nat} (l : List (Option String)) (h : ∀ o ∈ l, o = none) :
    ∀ acc, collectLoop l mf acc = acc := by
  induction l with
  | nil => intro acc; rfl
  | cons o rest ih =>
    intro acc
    have ho : o = none := h o (List.mem_cons_self o rest)
    subst ho
    rw [show collectLoop (none :: rest) mf acc =
        if mf ≤ acc.length then acc else collectLoop rest mf acc from rfl]
    split
    · rfl
    · exact ih (fun x hx => h x (List.mem_cons_of_mem none hx)) acc

lemma eff_fname_ne_empty {n : NodeWithScore} {s : String} (h : eff_fname n = some s) :
    s ≠ "" := by
  unfold eff_fname at h
  rcases hf : fname_of n with _ | t
  · rw [hf] at h; cases h
  · rw [hf] at h
    have h2 : (if t = "" then none else some t : Option String) = some s := h
    by_cases ht : t = ""
    · rw [if_pos ht] at h2; cases h2
    · rw [if_neg ht] at h2
      rw [← Option.some.inj h2]
      exact ht

lemma joinSep_ne_empty {sep x : String} (xs : List String) (h : x ≠ "") :
    joinSep sep (x :: xs) ≠ "" := by
  cases xs with
  | nil => exact h
  | cons y t =>
    rw [show joinSep sep (x :: y :: t) = x ++ sep ++ joinSep sep (y :: t) from rfl]
    intro hcon
    rw [str_eq_empty_iff, sdata_append, sdata_append, List.append_assoc,
      List.append_eq_nil] at hcon
    exact h ((str_eq_empty_iff x).mpr hcon.1)

/-
Lemmas about pySplit2 and the pick/feedback payload parsing.
-/

lemma pySplit2_malformed {s : String} (h : List.count '|' s.data < 2) : pySplit2 s = none := by
  by_cases hm : ('|' : Char) ∈ s.data
  · have hd := split_first_decomp hm
    have hcount : List.count '|' s.data =
        List.count '|' (split_first s.data '|').2 + 1 := by
      conv_lhs => rw [hd.1]
      rw [List.count_append, List.count_cons]
      have hz : List.count '|' (split_first s.data '|').1 = 0 :=
        List.count_eq_zero.mpr hd.2
      rw [hz]
      simp
    have hr : ('|' : Char) ∉ (split_first s.data '|').2 := by
      apply List.count_eq_zero.mp
      omega
    unfold pySplit2
    rw [if_pos hm, if_neg hr]
  · unfold pySplit2
    rw [if_neg hm]

lemma pySplit2_wellformed {score question : String} (h : ('|' : Char) ∉ score.data) :
    pySplit2 ("fb|" ++ score ++ "|" ++ question) = some ("fb", score, question) := by
  have hdata : ("fb|" ++ score ++ "|" ++ question).data =
      'f' :: 'b' :: '|' :: (score.data ++ '|' :: question.data) := by
    rw [sdata_append, sdata_append, sdata_append]
    rw [List.append_assoc, List.append_assoc]
    rfl
  have hfb : ('|' : Char) ∉ ['f', 'b'] := by decide
  have hsf1 : split_first ("fb|" ++ score ++ "|" ++ question).data '|' =
      (['f', 'b'], score.data ++ '|' :: question.data) := by
    rw [hdata]
    exact split_first_append ['f', 'b'] _ hfb
  have hsf2 : split_first (score.data ++ '|' :: question.data) '|' =
      (score.data, question.data) := split_first_append _ _ h
  unfold pySplit2
  rw [if_pos (by rw [hdata]; simp), hsf1]
  rw [if_pos (by simp)]
  simp only [hsf2]

/-
Lemmas about assocFind and the persisted store of the index builder.
-/

lemma assocFind_append_left {α : Type} {l1 l2 : List (String × α)} {k : String} {v : α}
    (h : assocFind l1 k = some v) : assocFind (l1 ++ l2) k = some v := by
  induction l1 with
  | nil => cases h
  | cons e t ih =>
    by_cases he : e.1 = k
    · rw [assocFind, if_pos he] at h
      rw [List.cons_append, assocFind, if_pos he]
      exact h
    · rw [assocFind, if_neg he] at h
      rw [List.cons_append, assocFind, if_neg he]
      exact ih h

lemma assocFind_append_right {α : Type} {l1 l2 : List (String × α)} {k : String}
    (h : assocFind l1 k = none) : assocFind (l1 ++ l2) k = assocFind l2 k := by
  induction l1 with
  | nil => rfl
  | cons e t ih =>
    by_cases he : e.1 = k
    · rw [assocFind, if_pos he] at h; cases h
    · rw [assocFind, if_neg he] at h
      rw [List.cons_append, assocFind, if_neg he]
      exact ih h

lemma assocFind_filter_self {α : Type} (store : List (String × α)) (cat : String) :
    assocFind (store.filter (fun e => e.1 != cat)) cat = none := by
  induction store with
  | nil => rfl
  | cons e t ih =>
    by_cases he : e.1 = cat
    · rw [List.filter_cons, if_neg (by simp [he])]
      exact ih
    · rw [List.filter_cons, if_pos (by simp [he])]
      rw [assocFind, if_neg he]
      exact ih

lemma assocFind_filter_other {α : Type} (store : List (String × α)) {cat c : String}
    (h : c ≠ cat) : assocFind (store.filter (fun e => e.1 != cat)) c = assocFind store c := by
  induction store with
  | nil => rfl
  | cons e t ih =>
    by_cases he : e.1 = c
    · rw [List.filter_cons, if_pos (by simp [he ▸ h])]
      rw [assocFind, if_pos he, assocFind, if_pos he]
    · by_cases hec : e.1 = cat
      · rw [List.filter_cons, if_neg (by simp [hec])]
        rw [assocFind, if_neg he]
        exact ih
      · rw [List.filter_cons, if_pos (by simp [hec])]
        rw [assocFind, if_neg he, assocFind, if_neg he]
        exact ih

lemma insertSorted_length (x : String) (l : List String) :
    (insertSorted x l).length = l.length + 1 := by
  induction l with
  | nil => rfl
  | cons y t ih =>
    rw [insertSorted]
    split
    · rfl
    · rw [List.length_cons, ih, List.length_cons]

lemma pySorted_length (l : List String) : (pySorted l).length = l.length := by
  induction l with
  | nil => rfl
  | cons x t ih =>
    rw [show pySorted (x :: t) = insertSorted x (pySorted t) from rfl]
    rw [insertSorted_length, ih, List.length_cons]

lemma pySorted_ne_nil {l : List String} (h : l ≠ []) : pySorted l ≠ [] := by
  intro hcon
  apply h
  have := pySorted_length l
  rw [hcon] at this
  exact List.length_eq_zero.mp this.symm

/-
Alias table facts and rerank lemmas.
-/

lemma alias_cat_ne_empty {p c : String} (h : alias_lookup p = some c) : c ≠ "" := by
  unfold alias_lookup at h
  rcases hf : ALIASES.find? (fun e => decide (p ∈ e.2)) with _ | e
  · rw [hf] at h; cases h
  · rw [hf] at h
    have hmem := List.mem_of_find?_eq_some hf
    have hall : ∀ x ∈ ALIASES, x.1 ≠ "" := by decide
    rw [← Option.some.inj h]
    exact hall e hmem

lemma rerank_step_none (q : String) (ns : List NodeWithScore) :
    rerank_step none q ns = ns := rfl

lemma rerank_step_fail {f : RerankFn} (hf : ∀ q ns, f q ns = none) (q : String)
    (ns : List NodeWithScore) : rerank_step (some f) q ns = ns := by
  have heq : rerank_step (some f) q ns =
      (if ns = [] then ns else
        match f q ns with
        | some ns2 => ns2
        | none => ns) := rfl
  rw [heq]
  by_cases hn : ns = []
  · rw [if_pos hn]
  · rw [if_neg hn]
    simp [hf]

/-
Claim theorems.
-/

/-- Claim C2: an input of the form alias-colon-question whose alias, compared
case-insensitively after stripping, is in the static table resolves to the
aliased category with the stripped remainder as query; an input with no colon
(hence no recognized prefix) yields no category together with the stripped
input, so dispatch falls back to the session-selected category, or to
searching all categories when none is selected. -/
theorem claim_c2 :
    (∀ (a b cat2 : String), alias_lookup (pyLower (pyStrip a)) = some cat2 →
      (':' : Char) ∉ a.data →
      detect_category_and_query (a ++ ":" ++ b) = (some cat2, pyStrip b)) ∧
    (∀ (s : String) (sel : Option String), (':' : Char) ∉ s.data →
      detect_category_and_query s = (none, pyStrip s) ∧
      merge_cat (detect_category_and_query s).1 sel = sel) := by
  constructor
  · intro a b cat2 h1 h2
    exact detect_alias a b cat2 h1 h2
  · intro s sel h
    have hd := detect_no_colon h
    refine ⟨hd, ?_⟩
    rw [hd]
    rfl

/-- Witness for C2: the maps alias resolves in upper and lower case, and a
colonless input falls back to the session-selected category. -/
theorem claim_c2_witness :
    alias_lookup (pyLower (pyStrip "MAPS")) = some "maps" ∧
    detect_category_and_query ("MAPS" ++ ":" ++ " where is X") =
      (some "maps", pyStrip " where is X") ∧
    detect_category_and_query ("maps" ++ ":" ++ " where is X") =
      (some "maps", pyStrip " where is X") ∧
    detect_category_and_query "where is X" = (none, pyStrip "where is X") ∧
    merge_cat (detect_category_and_query "where is X").1 (some "items") = some "items" :=
  ⟨by decide, claim_c2.1 "MAPS" " where is X" "maps" (by decide) (by decide),
   claim_c2.1 "maps" " where is X" "maps" (by decide) (by decide),
   (claim_c2.2 "where is X" (some "items") (by decide)).1,
   (claim_c2.2 "where is X" (some "items") (by decide)).2⟩

/-- Claim C9: an input containing a colon whose part before the first colon is
not a recognized alias yields no category together with the entire stripped
input (colon and unknown prefix kept), so dispatch falls back to the session
category or the all-categories search with the full text. -/
theorem claim_c9 (s : String) (sel : Option String)
    (hc : (':' : Char) ∈ s.data)
    (h : alias_lookup
      (String.mk (pyLowerL (pyStripL (split_first (pyStripL s.data) ':').1))) = none) :
    detect_category_and_query s = (none, pyStrip s) ∧
    merge_cat (detect_category_and_query s).1 sel = sel := by
  have hd := detect_unknown hc h
  refine ⟨hd, ?_⟩
  rw [hd]
  rfl

/-- Witness for C9 on the unrecognized prefix foo. -/
theorem claim_c9_witness :
    detect_category_and_query "foo: apa" = (none, pyStrip "foo: apa") ∧
    merge_cat (detect_category_and_query "foo: apa").1 (some "npc") = some "npc" :=
  ⟨(claim_c9 "foo: apa" (some "npc") (by decide) (by decide)).1,
   (claim_c9 "foo: apa" (some "npc") (by decide) (by decide)).2⟩

/-- Claim C3: a category name absent from the loaded retriever table is
rejected with the specific not-indexed message naming it, both when chosen on
the category keyboard and when reached through an alias prefix; neither path
silently searches all categories (the keyboard path also leaves the session
selection untouched). -/
theorem claim_c3 :
    (∀ (R : Retrievers) (sel : Option String) (c : String), c ≠ "all" →
      assocFind R c = none →
      pick_category_callback R ("CAT|" ++ c) sel =
        (PickOutcome.notIndexed (pick_not_indexed_msg c), sel)) ∧
    (∀ (R : Retrievers) (rr : Option RerankFn) (sel : Option String) (a b cat2 : String),
      alias_lookup (pyLower (pyStrip a)) = some cat2 → (':' : Char) ∉ a.data →
      assocFind R cat2 = none →
      handle_message R rr sel (a ++ ":" ++ b) =
        Outcome.notIndexed (hm_not_indexed_msg cat2)) := by
  constructor
  · intro R sel c hall hfind
    have hdata : ("CAT|" ++ c).data = 'C' :: 'A' :: 'T' :: '|' :: c.data := by
      rw [sdata_append]; rfl
    have hsf : split_first ("CAT|" ++ c).data '|' = (['C', 'A', 'T'], c.data) := by
      rw [hdata]
      exact split_first_append ['C', 'A', 'T'] c.data (by decide)
    unfold pick_category_callback
    rw [if_pos (by rw [hdata]; simp), hsf]
    show pick_core R c sel = _
    unfold pick_core
    rw [if_neg hall, hfind]
  · intro R rr sel a b cat2 h1 h2 hfind
    have hd := detect_alias a b cat2 h1 h2
    unfold handle_message
    rw [hd]
    show handle_core R rr (some cat2) (pyStrip b) = _
    have hg : cat_guard R (some cat2) = true := by
      show ((cat2 != "") && (assocFind R cat2).isNone) = true
      rw [hfind]
      simp [bne_iff_ne, alias_cat_ne_empty h1]
    unfold handle_core
    rw [hg, if_pos rfl]
    rfl

/-- Witness for C3: with no retriever loaded, both the keyboard and the alias
path reject maps with the not-indexed message. -/
theorem claim_c3_witness :
    pick_category_callback [] ("CAT|" ++ "maps") none =
      (PickOutcome.notIndexed (pick_not_indexed_msg "maps"), none) ∧
    handle_message [] none none ("maps" ++ ":" ++ " dimana") =
      Outcome.notIndexed (hm_not_indexed_msg "maps") :=
  ⟨claim_c3.1 [] none "maps" (by decide) rfl,
   claim_c3.2 [] none none "maps" " dimana" "maps" (by decide) (by decide) rfl⟩

/-- Claim C6: the file list underlying the source note is the first-seen
de-duplication of the retrieved chunks' file names truncated to the cap of 5,
hence it lists each file name at most once, in first-seen order, with at most
5 entries. -/
theorem claim_c6 (nodes : List NodeWithScore) :
    sources_files nodes 5 =
      (first_seen [] (List.filterMap id (nodes.map eff_fname))).take 5 ∧
    (sources_files nodes 5).Nodup ∧
    (sources_files nodes 5).length ≤ 5 := by
  have he := collectLoop_eq (nodes.map eff_fname) 5 [] (by decide)
  simp only [List.nil_append, List.length_nil, Nat.sub_zero] at he
  have he2 : sources_files nodes 5 =
      (first_seen [] (List.filterMap id (nodes.map eff_fname))).take 5 := he
  refine ⟨he2, ?_, ?_⟩
  · rw [he2]
    exact (List.take_sublist _ _).nodup (first_seen_nodup _ []).1
  · rw [he2, List.length_take]
    exact inf_le_left

/-- Claim C10: collect_sources never returns the empty string, and when no
chunk carries a truthy file-name metadata entry (none of file_name, filename,
id holds a non-empty value) it returns the fixed literal dataset, so every
answered question carries a non-empty source note. -/
theorem claim_c10 (nodes : List NodeWithScore) :
    collect_sources nodes ≠ "" ∧
    ((∀ n ∈ nodes, eff_fname n = none) → collect_sources nodes = "dataset") := by
  constructor
  · unfold collect_sources
    by_cases hf : sources_files nodes 5 = []
    · rw [if_pos hf]
      decide
    · rw [if_neg hf]
      rcases hl : sources_files nodes 5 with _ | ⟨x, xs⟩
      · exact absurd hl hf
      · have hx : x ∈ sources_files nodes 5 := by
          rw [hl]; exact List.mem_cons_self _ _
        have hsome : some x ∈ nodes.map eff_fname := by
          rcases collectLoop_mem 5 (nodes.map eff_fname) [] x hx with h1 | h1
          · cases h1
          · exact h1
        obtain ⟨n, _, he⟩ := List.mem_map.mp hsome
        exact joinSep_ne_empty xs (eff_fname_ne_empty he)
  · intro hnone
    have hall : ∀ o ∈ nodes.map eff_fname, o = none := by
      intro o ho
      obtain ⟨n, hn, he⟩ := List.mem_map.mp ho
      rw [← he]
      exact hnone n hn
    have hempty : sources_files nodes 5 = [] := by
      rw [sources_files]
      exact collectLoop_all_none _ hall []
    unfold collect_sources
    rw [if_pos hempty]

/-- Witness for C10 on the empty chunk list. -/
theorem claim_c10_witness :
    collect_sources [] = "dataset" ∧ collect_sources [] ≠ "" :=
  ⟨(claim_c10 []).2 (by simp), (claim_c10 []).1⟩

/-- Claim C1 (amended): when the category guard passes and the joined context
of the pipeline's chunks strips to nothing — which happens exactly when
retrieval yields zero chunks, or one chunk whose text is blank; with two or
more chunks the join delimiter keeps the context non-blank — handle_message
replies with the fixed not-found sentence and never reaches the model call. -/
theorem claim_c1_amended (R : Retrievers) (rr : Option RerankFn) (sel : Option String)
    (q_raw : String)
    (hg : cat_guard R (merge_cat (detect_category_and_query q_raw).1 sel) = false)
    (hb : pyStripL (context_join
      ((pipeline_nodes R rr sel q_raw).map (fun n => n.node.text))).data = []) :
    handle_message R rr sel q_raw = Outcome.noContext not_found_msg ∧
    ∀ p s m, handle_message R rr sel q_raw ≠ Outcome.llmCall p s m := by
  have h1 : handle_message R rr sel q_raw = Outcome.noContext not_found_msg := by
    unfold pipeline_nodes at hb
    unfold handle_message handle_core
    rw [hg, if_neg Bool.false_ne_true]
    unfold answer_step
    rw [if_pos hb]
  refine ⟨h1, ?_⟩
  intro p s m hcon
  rw [h1] at hcon
  cases hcon

/-- The retriever table of the C1 counterexample: the maps category returns
two chunks whose texts are blank (whitespace only). -/
def cex_retrievers : Retrievers :=
  [("maps", fun _ => [⟨⟨" ", []⟩⟩, ⟨⟨"  ", []⟩⟩])]

/-- Counterexample to C1 as stated: with maps selected, retrieval returns two
chunks and every chunk's text is blank, yet handle_message issues the remote
model call instead of the fixed not-found reply, because the join delimiter
makes the assembled context non-blank. -/
theorem claim_c1_counterexample :
    (pipeline_nodes cex_retrievers none (some "maps") "siapa raja").length = 2 ∧
    (∀ n ∈ pipeline_nodes cex_retrievers none (some "maps") "siapa raja",
      pyStripL n.node.text.data = []) ∧
    (handle_message cex_retrievers none (some "maps") "siapa raja").is_llm_call = true ∧
    handle_message cex_retrievers none (some "maps") "siapa raja" ≠
      Outcome.noContext not_found_msg := by
  refine ⟨by decide, by decide, by decide, by decide⟩

/-- Witness for the amended C1: with no retriever loaded, retrieval returns
zero chunks and the reply is exactly the fixed not-found text. -/
theorem claim_c1_witness :
    cat_guard ([] : Retrievers) (merge_cat (detect_category_and_query "halo").1 none) = false ∧
    pyStripL (context_join
      ((pipeline_nodes [] none none "halo").map (fun n => n.node.text))).data = [] ∧
    handle_message [] none none "halo" = Outcome.noContext not_found_msg :=
  ⟨by decide, by decide, (claim_c1_amended [] none none "halo" (by decide) (by decide)).1⟩

/-- Claim C4: when the reranker is unavailable the pipeline keeps the original
retrieval order, and when its postprocess_nodes call raises at runtime the
failure is swallowed: handle_message behaves exactly as with no reranker, so
a reranking failure never fails the overall query. -/
theorem claim_c4 (f : RerankFn) (hf : ∀ q ns, f q ns = none) :
    (∀ q ns, rerank_step none q ns = ns ∧ rerank_step (some f) q ns = ns) ∧
    (∀ (R : Retrievers) (sel : Option String) (q_raw : String),
      handle_message R (some f) sel q_raw = handle_message R none sel q_raw) := by
  constructor
  · intro q ns
    exact ⟨rerank_step_none q ns, rerank_step_fail hf q ns⟩
  · intro R sel q_raw
    unfold handle_message handle_core
    rw [rerank_step_fail hf, rerank_step_none]

/-- Witness for C4 with an always-raising reranker. -/
theorem claim_c4_witness :
    rerank_step (some (fun _ _ => none)) "q" [] = [] ∧
    handle_message [] (some (fun _ _ => none)) none "halo" =
      handle_message [] none none "halo" :=
  ⟨((claim_c4 (fun _ _ => none) (fun _ _ => rfl)).1 "q" []).2,
   (claim_c4 (fun _ _ => none) (fun _ _ => rfl)).2 [] none "halo"⟩

/-- Claim C5: build_one with zero markdown source files returns after only a
warning, leaving the persisted store untouched; with at least one source file
it deletes and rewrites exactly this category's persisted index and leaves
every other category's persisted state unchanged. -/
theorem claim_c5 (category : String) (src_md : List String)
    (store : List (String × List String)) :
    (src_md = [] → build_one category src_md store = store) ∧
    (src_md ≠ [] →
      assocFind (build_one category src_md store) category = some (pySorted src_md) ∧
      ∀ c, c ≠ category →
        assocFind (build_one category src_md store) c = assocFind store c) := by
  constructor
  · intro h
    subst h
    rfl
  · intro h
    have hs : pySorted src_md ≠ [] := pySorted_ne_nil h
    have hb : build_one category src_md store =
        store.filter (fun e => e.1 != category) ++ [(category, pySorted src_md)] := by
      unfold build_one
      rw [if_neg hs]
    constructor
    · rw [hb, assocFind_append_right (assocFind_filter_self store category)]
      simp [assocFind]
    · intro c hc
      rw [hb]
      rcases hsf : assocFind (store.filter (fun e => e.1 != category)) c with _ | v
      · rw [assocFind_append_right hsf]
        rw [assocFind_filter_other store hc] at hsf
        rw [hsf]
        simp [assocFind, Ne.symm hc]
      · rw [assocFind_append_left hsf]
        rw [assocFind_filter_other store hc] at hsf
        exact hsf.symm

/-- Witness for C5: an empty maps source directory leaves the store alone; a
non-empty one rewrites maps and leaves npc untouched. -/
theorem claim_c5_witness :
    build_one "maps" [] [("npc", ["n.md"])] = [("npc", ["n.md"])] ∧
    assocFind (build_one "maps" ["b.md", "a.md"] [("npc", ["n.md"])]) "maps" =
      some (pySorted ["b.md", "a.md"]) ∧
    assocFind (build_one "maps" ["b.md", "a.md"] [("npc", ["n.md"])]) "npc" =
      assocFind [("npc", ["n.md"])] "npc" :=
  ⟨(claim_c5 "maps" [] [("npc", ["n.md"])]).1 rfl,
   ((claim_c5 "maps" ["b.md", "a.md"] [("npc", ["n.md"])]).2 (by decide)).1,
   ((claim_c5 "maps" ["b.md", "a.md"] [("npc", ["n.md"])]).2 (by decide)).2 "npc" (by decide)⟩

/-- Claim C7: a well-formed feedback payload appends exactly one row holding
the user id, username, submitted score, original question text and the
ISO-8601 timestamp taken at write time, writes the header row exactly when
the file was empty, and leaves every existing row in place. -/
theorem claim_c7 (file : List (List String)) (score question : String) (uid : Int)
    (uname : Option String) (now_iso : String) (h : ('|' : Char) ∉ score.data) :
    feedback_callback file ("fb|" ++ score ++ "|" ++ question) uid uname now_iso =
      (FBOutcome.thanks ("✅ Terima kasih! Feedback " ++ score ++ "/5 terekam."),
       if file = [] then [FIELDNAMES, fb_row uid uname score question now_iso]
       else file ++ [fb_row uid uname score question now_iso]) := by
  unfold feedback_callback
  rw [pySplit2_wellformed h]

/-- Witness for C7: rating 4 for the question who is the king lands as one
row with the header in a previously empty log. -/
theorem claim_c7_witness :
    feedback_callback [] ("fb|" ++ "4" ++ "|" ++ "who is the king") 1 (some "alice")
        "2024-05-05T10:00:00" =
      (FBOutcome.thanks ("✅ Terima kasih! Feedback " ++ "4" ++ "/5 terekam."),
       [FIELDNAMES, fb_row 1 (some "alice") "4" "who is the king" "2024-05-05T10:00:00"]) :=
  (claim_c7 [] "4" "who is the king" 1 (some "alice") "2024-05-05T10:00:00"
    (by decide)).trans (by rfl)

/-- Claim C8: a malformed interactive payload is answered with a validation
message and changes no state: a feedback payload with fewer than two bars
leaves the log untouched, and a category payload with no bar leaves the
session selection untouched. -/
theorem claim_c8 :
    (∀ (file : List (List String)) (data : String) (uid : Int) (uname : Option String)
      (now_iso : String), List.count '|' data.data < 2 →
      feedback_callback file data uid uname now_iso =
        (FBOutcome.invalid "⚠️ Format feedback tidak valid.", file)) ∧
    (∀ (R : Retrievers) (data : String) (sel : Option String), ('|' : Char) ∉ data.data →
      pick_category_callback R data sel =
        (PickOutcome.unknownChoice "Pilihan tidak dikenal. /start lagi ya.", sel)) := by
  constructor
  · intro file data uid uname now_iso h
    unfold feedback_callback
    rw [pySplit2_malformed h]
  · intro R data sel h
    unfold pick_category_callback
    rw [if_neg h]

/-- Witness for C8 on the truncated payloads fb and CAT. -/
theorem claim_c8_witness :
    feedback_callback [["user_id"]] "fb" 7 none "2024-01-01T00:00:00" =
      (FBOutcome.invalid "⚠️ Format feedback tidak valid.", [["user_id"]]) ∧
    pick_category_callback [] "CAT" (some "npc") =
      (PickOutcome.unknownChoice "Pilihan tidak dikenal. /start lagi ya.", some "npc") :=
  ⟨claim_c8.1 [["user_id"]] "fb" 7 none "2024-01-01T00:00:00" (by decide),
   claim_c8.2 [] "CAT" (some "npc") (by decide)⟩
